import Mathlib

/-!
Verification of the TTL-refreshed configuration cache
(`pkg/api/config/config.go`).

The Go code is shallowly embedded as pure Lean functions:

* `time.Time` and `time.Duration` become `Int` (nanoseconds); `time.Duration`
  is an `int64` in Go, and `Time.Sub` saturates at the extreme `int64` values,
  which `timeSub` reproduces.
* The Go map `map[string]*model.APIConfig` becomes an association list
  `List (String × APIConfig)` with front insertion, so a map write that
  overwrites an existing key is modelled by consing the new binding in front
  and `mapLookup` returning the first (most recent) binding.
* The durable store read `database.ReadAPIConfigs` and the duration parser
  `time.ParseDuration` are external collaborators; they enter the embedding
  as explicit inputs (`ReadResult`, a `String → Option Duration` parameter).
* The logger is an external sink; each function returns the list of events it
  would emit.  `logger.Fatalf` is recorded as a `fatal` event and the code
  following it is modelled as written (the `return err` after the fatal log).
* The mutexes serialize every `loadConfig` body and every `appConfig` body;
  a concurrent execution is therefore an arbitrary sequential interleaving of
  those atomic bodies, which `runLoads` models as a list of calls.
-/

set_option autoImplicit false

namespace ConfigCache

/-- `time.Duration`: `int64` nanoseconds. -/
abbrev Duration := Int

/-- `time.Time`, as nanoseconds since Go's zero time (January 1, year 1).
The zero `time.Time` value is `0`. -/
abbrev Time := Int

/-- Largest `time.Duration` (`math.MaxInt64` nanoseconds). -/
def maxDuration : Duration := 2 ^ 63 - 1

/-- Smallest `time.Duration` (`math.MinInt64` nanoseconds). -/
def minDuration : Duration := -(2 ^ 63)

/-- `t.Sub u` for `time.Time`: the difference saturates at the extreme
`time.Duration` values, per the `time` package documentation.
`time.Since(u)` at wall-clock instant `now` is `timeSub now u`. -/
def timeSub (t u : Time) : Duration :=
  max minDuration (min (t - u) maxDuration)

/-- `time.Minute` in nanoseconds. -/
def minute : Duration := 60 * 1000000000

/-- `defaultRefreshPeriod = time.Minute`. -/
def defaultRefreshPeriod : Duration := minute

/-- Modelled from the spec: `model.APIConfig` (package `cambio/pkg/model` is
not part of the sources).  A ConfigRecord is an opaque value whose one
attribute used by the cache is its package identifier `AppPackageName`;
`payload` stands for the remaining opaque fields. -/
structure APIConfig where
  AppPackageName : String
  payload : Nat
deriving DecidableEq, Repr

/-- Severity levels offered by the logging collaborator. -/
inductive LogLevel where
  | info
  | warn
  | error
  | fatal
deriving DecidableEq, Repr

/-- One event emitted to the logging sink. -/
structure LogEvent where
  level : LogLevel
  msg : String
deriving DecidableEq, Repr

/-- The `config` struct: `lastLoadTime`, `cache` and `refreshPeriod`
(the mutex has no data content; see the module comment). -/
structure config where
  lastLoadTime : Time
  cache : List (String × APIConfig)
  refreshPeriod : Duration
deriving Repr

/-- Reading a Go map: the first binding in the association list is the most
recently written one. -/
def mapLookup (m : List (String × APIConfig)) (k : String) : Option APIConfig :=
  match m with
  | [] => none
  | (k', v) :: rest => if k' = k then some v else mapLookup rest k

/-- Outcome of the external durable-store read `database.ReadAPIConfigs`:
either the full sequence of records, or an error. -/
inductive ReadResult where
  | ok (configs : List APIConfig)
  | err (e : String)
deriving DecidableEq, Repr

/-- `newConfig`: builds the cache state, reading the optional
`CONFIG_REFRESH_DURATION` override from the environment.  `env` is the value
`os.Getenv` returns (the empty string when the variable is unset) and
`parseDuration` is the external `time.ParseDuration` (`none` = parse error).
Returns the constructed `config` and the emitted log events. -/
def newConfig (parseDuration : String → Option Duration) (env : String) :
    config × List LogEvent :=
  let base : config :=
    { lastLoadTime := 0, cache := [], refreshPeriod := defaultRefreshPeriod }
  let withEnv : config × List LogEvent :=
    if env ≠ "" then
      match parseDuration env with
      | none =>
          (base, [⟨LogLevel.info, "CONFIG_REFRESH_DURATION parse error"⟩])
      | some d => ({ base with refreshPeriod := d }, [])
    else (base, [])
  let warnLogs : List LogEvent :=
    if withEnv.1.refreshPeriod > 5 * minute then
      [⟨LogLevel.warn, "config refresh duration is > 5 minutes"⟩]
    else []
  (withEnv.1, withEnv.2 ++ warnLogs)

/-- Result of one `loadConfig` body: the state after the call, the returned
`error` (`none` = `nil`), the emitted log events and whether the body
performed a durable-store read. -/
structure LoadResult where
  state : config
  ret : Option String
  logs : List LogEvent
  didRead : Bool
deriving Repr

/-- `loadConfig`, whose whole body runs under the exclusive mutex: if the
cache is not yet expired it returns `nil` untouched; otherwise it reads the
store (`read` is what `database.ReadAPIConfigs` returns at this call).  On a
read error it logs fatally and returns the error; on success it builds a
brand-new map from the returned sequence, logs, and stamps `lastLoadTime`
with the current instant `now`. -/
def loadConfig (c : config) (now : Time) (read : ReadResult) : LoadResult :=
  if timeSub now c.lastLoadTime < c.refreshPeriod then
    { state := c, ret := none, logs := [], didRead := false }
  else
    match read with
    | ReadResult.err e =>
        { state := c
          ret := some e
          logs := [⟨LogLevel.fatal, "error loading APIConfig"⟩]
          didRead := true }
    | ReadResult.ok configs =>
        { state :=
            { c with
              cache :=
                configs.foldl (fun m ac => (ac.AppPackageName, ac) :: m) []
              lastLoadTime := now }
          ret := none
          logs := [⟨LogLevel.info, "loaded new APIConfig values"⟩]
          didRead := true }

/-- `appConfig`: the read-locked map lookup, returning the record pointer
(`none` = `nil`) and the `ok` indicator of the map read. -/
def appConfig (c : config) (appPkg : String) : Option APIConfig × Bool :=
  (mapLookup c.cache appPkg, (mapLookup c.cache appPkg).isSome)

/-- Result of the public entry point: the state after the call, the returned
record pointer, the returned `error`, the emitted log events, and whether a
durable-store read happened. -/
structure AppPkgResult where
  state : config
  record : Option APIConfig
  ret : Option String
  logs : List LogEvent
  didRead : Bool
deriving Repr

/-- `AppPkgConfig`: calls `loadConfig` (discarding its error), looks the
package up in the refreshed snapshot, logs an error-level diagnostic when it
is not found, and returns the record with a `nil` error. -/
def AppPkgConfig (c : config) (now : Time) (read : ReadResult)
    (appPkg : String) : AppPkgResult :=
  let lr := loadConfig c now read
  let found := appConfig lr.state appPkg
  let notFoundLogs : List LogEvent :=
    if found.2 then []
    else [⟨LogLevel.error, "requested config for unconfigured app"⟩]
  { state := lr.state
    record := found.1
    ret := none
    logs := lr.logs ++ notFoundLogs
    didRead := lr.didRead }

/-- A sequence of `loadConfig` bodies run back to back (the mutex makes each
body atomic, so any concurrent execution is one such sequence).  Each call
carries its instant and what the store would return; the result is the final
state and how many durable-store reads were performed in total. -/
def runLoads (c : config) (calls : List (Time × ReadResult)) : config × Nat :=
  match calls with
  | [] => (c, 0)
  | (t, r) :: rest =>
      let lr := loadConfig c t r
      let res := runLoads lr.state rest
      (res.1, (if lr.didRead then 1 else 0) + res.2)

/-! ### Helper lemmas -/

theorem foldl_consFront (configs : List APIConfig) (init : List (String × APIConfig)) :
    configs.foldl (fun m ac => (ac.AppPackageName, ac) :: m) init
      = (configs.map fun ac => (ac.AppPackageName, ac)).reverse ++ init := by
  induction configs generalizing init with
  | nil => simp
  | cons a l ih => simp [List.foldl_cons, ih]

theorem mapLookup_map_eq_find (l : List APIConfig) (k : String) :
    mapLookup (l.map fun ac => (ac.AppPackageName, ac)) k
      = l.find? (fun ac => ac.AppPackageName == k) := by
  induction l with
  | nil => rfl
  | cons a l ih =>
      by_cases h : a.AppPackageName = k
      · simp [mapLookup, List.find?_cons, h, ih]
      · simp [mapLookup, List.find?_cons, h, ih]

theorem loadConfig_ok_cache (c : config) (now : Time) (configs : List APIConfig)
    (hstale : ¬ timeSub now c.lastLoadTime < c.refreshPeriod) :
    (loadConfig c now (ReadResult.ok configs)).state.cache
      = (configs.map fun ac => (ac.AppPackageName, ac)).reverse := by
  simp [loadConfig, hstale, foldl_consFront]

theorem mapLookup_loadConfig_ok (c : config) (now : Time) (configs : List APIConfig)
    (k : String) (hstale : ¬ timeSub now c.lastLoadTime < c.refreshPeriod) :
    mapLookup (loadConfig c now (ReadResult.ok configs)).state.cache k
      = configs.reverse.find? (fun ac => ac.AppPackageName == k) := by
  rw [loadConfig_ok_cache c now configs hstale, ← List.map_reverse,
    mapLookup_map_eq_find]

theorem timeSub_lt_of_window (t t0 rp : Int) (h1 : t0 ≤ t) (h2 : t - t0 < rp) :
    timeSub t t0 < rp := by
  unfold timeSub
  rw [max_lt_iff]
  constructor
  · have h0 : (0 : Int) < rp := by omega
    have hm : minDuration < 0 := by norm_num [minDuration]
    exact lt_trans hm h0
  · exact min_lt_iff.mpr (Or.inl h2)

theorem timeSub_of_big (now : Time) (hnow : maxDuration ≤ now) :
    timeSub now 0 = maxDuration := by
  unfold timeSub
  rw [sub_zero, min_eq_right hnow, max_eq_right]
  norm_num [minDuration, maxDuration]

theorem loadConfig_fresh_eq (c : config) (now : Time) (read : ReadResult)
    (hfresh : timeSub now c.lastLoadTime < c.refreshPeriod) :
    loadConfig c now read
      = { state := c, ret := none, logs := [], didRead := false } := by
  simp [loadConfig, hfresh]

theorem loadConfig_ok_logs (c : config) (now : Time) (configs : List APIConfig)
    (hstale : ¬ timeSub now c.lastLoadTime < c.refreshPeriod) :
    (loadConfig c now (ReadResult.ok configs)).logs
      = [⟨LogLevel.info, "loaded new APIConfig values"⟩] := by
  simp [loadConfig, hstale]

theorem AppPkgConfig_logs (c : config) (now : Time) (read : ReadResult)
    (appPkg : String) :
    (AppPkgConfig c now read appPkg).logs
      = (loadConfig c now read).logs ++
        (if (mapLookup (loadConfig c now read).state.cache appPkg).isSome
          then []
          else [⟨LogLevel.error, "requested config for unconfigured app"⟩]) :=
  rfl

theorem runLoads_all_fresh (c : config) (calls : List (Time × ReadResult))
    (h : ∀ p ∈ calls, timeSub p.1 c.lastLoadTime < c.refreshPeriod) :
    runLoads c calls = (c, 0) := by
  induction calls with
  | nil => rfl
  | cons p rest ih =>
      obtain ⟨t, r⟩ := p
      have hp := h (t, r) (List.mem_cons_self _ _)
      have hrest : ∀ q ∈ rest, timeSub q.1 c.lastLoadTime < c.refreshPeriod :=
        fun q hq => h q (List.mem_cons_of_mem _ hq)
      simp [runLoads, loadConfig, hp, ih hrest]

/-! ### Claim theorems -/

/-- C3: if at the time of a `loadConfig` call the elapsed time since
`lastLoadTime` is strictly below `refreshPeriod`, the call returns `nil`
without performing a durable-store read and leaves the whole state (cache
and `lastLoadTime`) unchanged. -/
theorem loadConfig_fresh_noop (c : config) (now : Time) (read : ReadResult)
    (hfresh : timeSub now c.lastLoadTime < c.refreshPeriod) :
    loadConfig c now read
      = { state := c, ret := none, logs := [], didRead := false } :=
  loadConfig_fresh_eq c now read hfresh

theorem loadConfig_fresh_noop_witness :
    timeSub 0 (config.mk 0 [] minute).lastLoadTime
        < (config.mk 0 [] minute).refreshPeriod ∧
    loadConfig (config.mk 0 [] minute) 0 (ReadResult.ok [])
      = { state := config.mk 0 [] minute, ret := none, logs := [],
          didRead := false } :=
  ⟨by decide, loadConfig_fresh_noop (config.mk 0 [] minute) 0
    (ReadResult.ok []) (by decide)⟩

/-- C4: the public entry point returns a `nil` error for every context,
state, store outcome and package identifier — a missing configuration is
reported through the record/indicator, never through the error value. -/
theorem AppPkgConfig_ret_nil (c : config) (now : Time) (read : ReadResult)
    (appPkg : String) : (AppPkgConfig c now read appPkg).ret = none := rfl

/-- C5: when the durable-store read fails inside a stale `loadConfig`, the
call emits exactly the fatal (process-terminating) log event, installs no
new snapshot, leaves `lastLoadTime` untouched, and returns the error. -/
theorem loadConfig_readError_fatal (c : config) (now : Time) (e : String)
    (hstale : ¬ timeSub now c.lastLoadTime < c.refreshPeriod) :
    (loadConfig c now (ReadResult.err e)).state = c ∧
    (loadConfig c now (ReadResult.err e)).ret = some e ∧
    (loadConfig c now (ReadResult.err e)).logs
      = [⟨LogLevel.fatal, "error loading APIConfig"⟩] := by
  simp [loadConfig, hstale]

theorem loadConfig_readError_fatal_witness :
    ¬ timeSub 0 (config.mk 0 [] 0).lastLoadTime
        < (config.mk 0 [] 0).refreshPeriod ∧
    ((loadConfig (config.mk 0 [] 0) 0 (ReadResult.err "boom")).state
        = config.mk 0 [] 0 ∧
     (loadConfig (config.mk 0 [] 0) 0 (ReadResult.err "boom")).ret
        = some "boom" ∧
     (loadConfig (config.mk 0 [] 0) 0 (ReadResult.err "boom")).logs
        = [⟨LogLevel.fatal, "error loading APIConfig"⟩]) :=
  ⟨by decide, loadConfig_readError_fatal (config.mk 0 [] 0) 0 "boom"
    (by decide)⟩

/-- C9: `AppPkgConfig` discards the error `loadConfig` returns.  When the
store read fails (and the fatal log is modelled as non-terminating, i.e. the
code after `logger.Fatalf` runs), `loadConfig` returns the error, yet
`AppPkgConfig` still returns a `nil` error and serves the lookup from the
unchanged — possibly empty or stale — snapshot. -/
theorem AppPkgConfig_discards_error (c : config) (now : Time) (e : String)
    (appPkg : String)
    (hstale : ¬ timeSub now c.lastLoadTime < c.refreshPeriod) :
    (loadConfig c now (ReadResult.err e)).ret = some e ∧
    (AppPkgConfig c now (ReadResult.err e) appPkg).ret = none ∧
    (AppPkgConfig c now (ReadResult.err e) appPkg).state = c ∧
    (AppPkgConfig c now (ReadResult.err e) appPkg).record
      = mapLookup c.cache appPkg := by
  simp [loadConfig, AppPkgConfig, appConfig, hstale]

theorem AppPkgConfig_discards_error_witness :
    ¬ timeSub 0 (config.mk 0 [] 0).lastLoadTime
        < (config.mk 0 [] 0).refreshPeriod ∧
    ((loadConfig (config.mk 0 [] 0) 0 (ReadResult.err "boom")).ret
        = some "boom" ∧
     (AppPkgConfig (config.mk 0 [] 0) 0 (ReadResult.err "boom") "x").ret
        = none ∧
     (AppPkgConfig (config.mk 0 [] 0) 0 (ReadResult.err "boom") "x").state
        = config.mk 0 [] 0 ∧
     (AppPkgConfig (config.mk 0 [] 0) 0 (ReadResult.err "boom") "x").record
        = mapLookup (config.mk 0 [] 0).cache "x") :=
  ⟨by decide, AppPkgConfig_discards_error (config.mk 0 [] 0) 0 "boom" "x"
    (by decide)⟩

/-- C10: when the requested package is absent from the snapshot served by
`AppPkgConfig`, the call returns a `nil` record pointer together with a
`nil` error; the public result carries no found indicator, so the `nil`
record is the only not-found signal at this interface (mirrored by
`AppPkgResult`, which has no Boolean field for it). -/
theorem AppPkgConfig_missing_nil_nil (c : config) (now : Time)
    (read : ReadResult) (appPkg : String)
    (habsent : mapLookup (loadConfig c now read).state.cache appPkg = none) :
    (AppPkgConfig c now read appPkg).record = none ∧
    (AppPkgConfig c now read appPkg).ret = none := by
  simp [AppPkgConfig, appConfig, habsent]

theorem AppPkgConfig_missing_nil_nil_witness :
    mapLookup (loadConfig (config.mk 0 [] minute) 0
        (ReadResult.ok [])).state.cache "x" = none ∧
    ((AppPkgConfig (config.mk 0 [] minute) 0 (ReadResult.ok []) "x").record
        = none ∧
     (AppPkgConfig (config.mk 0 [] minute) 0 (ReadResult.ok []) "x").ret
        = none) :=
  ⟨by decide, AppPkgConfig_missing_nil_nil (config.mk 0 [] minute) 0
    (ReadResult.ok []) "x" (by decide)⟩

/-- C6: `newConfig` takes the environment override as its refresh period
when it parses as a duration and keeps the 1-minute default otherwise; a
present but unparseable override logs an informational message and keeps
the default; construction never emits a fatal event (it cannot fail). -/
theorem newConfig_refresh_override (parseDuration : String → Option Duration)
    (env : String) :
    (∀ d, env ≠ "" → parseDuration env = some d →
       (newConfig parseDuration env).1.refreshPeriod = d) ∧
    (env ≠ "" → parseDuration env = none →
       (newConfig parseDuration env).1.refreshPeriod = defaultRefreshPeriod ∧
       LogEvent.mk LogLevel.info "CONFIG_REFRESH_DURATION parse error"
         ∈ (newConfig parseDuration env).2) ∧
    (env = "" →
       (newConfig parseDuration env).1.refreshPeriod = defaultRefreshPeriod) ∧
    (∀ ev ∈ (newConfig parseDuration env).2, ev.level ≠ LogLevel.fatal) := by
  refine ⟨?_, ?_, ?_, ?_⟩
  · intro d hne hd
    simp [newConfig, hne, hd]
  · intro hne hnone
    refine ⟨by simp [newConfig, hne, hnone], ?_⟩
    simp only [newConfig, if_pos hne, hnone]
    exact List.mem_append_left _ (List.mem_singleton.mpr rfl)
  · intro he
    simp [newConfig, he]
  · intro ev hev
    simp only [newConfig] at hev
    rcases List.mem_append.mp hev with h | h
    · by_cases hne : env = ""
      · simp [hne] at h
      · rw [if_pos hne] at h
        cases hp : parseDuration env
        · rw [hp] at h
          simp at h
          simp [h]
        · rw [hp] at h
          simp at h
    · split at h <;> simp at h <;> simp [h]

theorem newConfig_refresh_override_witness :
    ("30s" ≠ "" ∧
      (fun _ : String => some (30000000000 : Duration)) "30s"
        = some (30000000000 : Duration)) ∧
    (newConfig (fun _ => some (30000000000 : Duration)) "30s").1.refreshPeriod
      = (30000000000 : Duration) :=
  ⟨⟨by decide, rfl⟩,
    (newConfig_refresh_override (fun _ => some (30000000000 : Duration))
      "30s").1 (30000000000 : Duration) (by decide) rfl⟩

theorem newConfig_cache_lastLoad (parseDuration : String → Option Duration)
    (env : String) :
    (newConfig parseDuration env).1.cache = [] ∧
    (newConfig parseDuration env).1.lastLoadTime = 0 := by
  unfold newConfig
  by_cases h : env = "" <;> cases hp : parseDuration env <;> simp [h, hp]

theorem newConfig_refreshPeriod_le (parseDuration : String → Option Duration)
    (env : String)
    (hparse : ∀ s d, parseDuration s = some d → d ≤ maxDuration) :
    (newConfig parseDuration env).1.refreshPeriod ≤ maxDuration := by
  have hdef : defaultRefreshPeriod ≤ maxDuration := by
    norm_num [defaultRefreshPeriod, minute, maxDuration]
  unfold newConfig
  by_cases h : env = "" <;> cases hp : parseDuration env <;> simp [h, hp] <;>
    first
      | exact hdef
      | exact hparse env _ hp

/-- C7: a cache freshly built by `newConfig` has an empty snapshot and a
zero `lastLoadTime`; since every duration `time.ParseDuration` can produce
fits in an `int64` and the saturating `time.Since` of the zero time at any
real wall-clock instant (`maxDuration ≤ now`, i.e. more than ~292 years
after year 1) equals `maxDuration`, the very first `loadConfig` call
observes staleness and performs a durable-store read. -/
theorem newConfig_first_load_reads (parseDuration : String → Option Duration)
    (env : String) (now : Time) (read : ReadResult)
    (hparse : ∀ s d, parseDuration s = some d → d ≤ maxDuration)
    (hnow : maxDuration ≤ now) :
    (newConfig parseDuration env).1.cache = [] ∧
    (newConfig parseDuration env).1.lastLoadTime = 0 ∧
    (loadConfig (newConfig parseDuration env).1 now read).didRead = true := by
  obtain ⟨hc, hl⟩ := newConfig_cache_lastLoad parseDuration env
  refine ⟨hc, hl, ?_⟩
  have hrp := newConfig_refreshPeriod_le parseDuration env hparse
  have hstale : ¬ timeSub now (newConfig parseDuration env).1.lastLoadTime
      < (newConfig parseDuration env).1.refreshPeriod := by
    rw [hl, timeSub_of_big now hnow]
    exact not_lt.mpr hrp
  cases read <;> simp [loadConfig, hstale]

theorem newConfig_first_load_reads_witness :
    (∀ s d, (fun _ : String => (none : Option Duration)) s = some d →
        d ≤ maxDuration) ∧
    maxDuration ≤ (2 ^ 63 - 1 : Int) ∧
    ((newConfig (fun _ => none) "").1.cache = [] ∧
     (newConfig (fun _ => none) "").1.lastLoadTime = 0 ∧
     (loadConfig (newConfig (fun _ => none) "").1 (2 ^ 63 - 1 : Int)
        (ReadResult.ok [])).didRead = true) :=
  ⟨fun s d h => by simp at h,
    ⟨by norm_num [maxDuration],
      newConfig_first_load_reads (fun _ => none) "" (2 ^ 63 - 1 : Int)
        (ReadResult.ok []) (fun s d h => by simp at h)
        (by norm_num [maxDuration])⟩⟩

/-- C2: a stale `loadConfig` with a successful read installs a brand-new
snapshot computed from the returned sequence alone (the old cache does not
appear in it), keyed by `AppPackageName` with the later of two records
sharing an identifier winning (the lookup is `find?` over the reversed
sequence, i.e. the last matching record), and stamps `lastLoadTime` with the
current instant. -/
theorem loadConfig_ok_rebuilds (c : config) (now : Time)
    (configs : List APIConfig)
    (hstale : ¬ timeSub now c.lastLoadTime < c.refreshPeriod) :
    (loadConfig c now (ReadResult.ok configs)).state.cache
        = (configs.map fun ac => (ac.AppPackageName, ac)).reverse ∧
    (loadConfig c now (ReadResult.ok configs)).state.lastLoadTime = now ∧
    ∀ k, mapLookup (loadConfig c now (ReadResult.ok configs)).state.cache k
        = configs.reverse.find? (fun ac => ac.AppPackageName == k) := by
  refine ⟨loadConfig_ok_cache c now configs hstale, ?_,
    fun k => mapLookup_loadConfig_ok c now configs k hstale⟩
  simp [loadConfig, hstale]

theorem loadConfig_ok_rebuilds_witness :
    ¬ timeSub 5 (config.mk 0 [("old", APIConfig.mk "old" 0)] 0).lastLoadTime
        < (config.mk 0 [("old", APIConfig.mk "old" 0)] 0).refreshPeriod ∧
    ((loadConfig (config.mk 0 [("old", APIConfig.mk "old" 0)] 0) 5
        (ReadResult.ok [APIConfig.mk "a" 1, APIConfig.mk "a" 2])).state.cache
        = ([APIConfig.mk "a" 1, APIConfig.mk "a" 2].map
            fun ac => (ac.AppPackageName, ac)).reverse ∧
     (loadConfig (config.mk 0 [("old", APIConfig.mk "old" 0)] 0) 5
        (ReadResult.ok [APIConfig.mk "a" 1, APIConfig.mk "a" 2])).state.lastLoadTime
        = 5 ∧
     ∀ k, mapLookup (loadConfig (config.mk 0 [("old", APIConfig.mk "old" 0)] 0)
          5 (ReadResult.ok [APIConfig.mk "a" 1, APIConfig.mk "a" 2])).state.cache k
        = ([APIConfig.mk "a" 1, APIConfig.mk "a" 2].reverse.find?
            fun ac => ac.AppPackageName == k)) :=
  ⟨by decide,
    loadConfig_ok_rebuilds (config.mk 0 [("old", APIConfig.mk "old" 0)] 0) 5
      [APIConfig.mk "a" 1, APIConfig.mk "a" 2] (by decide)⟩

/-- C1: after a stale `loadConfig` whose store read succeeds, every
identifier present in the read is found by the lookup with a corresponding
record of the read; every absent identifier is not found and one call to
`AppPkgConfig` for it emits exactly one error-level diagnostic; and only
identifiers of the read are found, so no entry of an earlier snapshot
survives. -/
theorem loadConfig_snapshot_lookup (c : config) (now : Time)
    (configs : List APIConfig) (k : String)
    (hstale : ¬ timeSub now c.lastLoadTime < c.refreshPeriod) :
    (k ∈ configs.map APIConfig.AppPackageName →
      (appConfig (loadConfig c now (ReadResult.ok configs)).state k).2 = true ∧
      ∃ ac ∈ configs, ac.AppPackageName = k ∧
        (appConfig (loadConfig c now (ReadResult.ok configs)).state k).1
          = some ac) ∧
    (k ∉ configs.map APIConfig.AppPackageName →
      (appConfig (loadConfig c now (ReadResult.ok configs)).state k).2 = false ∧
      ((AppPkgConfig (loadConfig c now (ReadResult.ok configs)).state now
          (ReadResult.ok configs) k).logs.filter
            (fun ev => ev.level == LogLevel.error)).length = 1) ∧
    ((appConfig (loadConfig c now (ReadResult.ok configs)).state k).2 = true →
      k ∈ configs.map APIConfig.AppPackageName) := by
  have hL := mapLookup_loadConfig_ok c now configs k hstale
  refine ⟨?_, ?_, ?_⟩
  · intro hk
    obtain ⟨ac0, hac0, hname0⟩ := List.mem_map.mp hk
    have hsome : (configs.reverse.find?
        (fun ac => ac.AppPackageName == k)).isSome := by
      refine List.find?_isSome.mpr ⟨ac0, List.mem_reverse.mpr hac0, ?_⟩
      simp [hname0]
    obtain ⟨ac, hfind⟩ := Option.isSome_iff_exists.mp hsome
    have hmem : ac ∈ configs := List.mem_reverse.mp
      (List.mem_of_find?_eq_some hfind)
    have hpred : ac.AppPackageName = k := by
      have := List.find?_some hfind
      simpa using this
    refine ⟨by simp [appConfig, hL, hfind], ac, hmem, hpred, ?_⟩
    simp [appConfig, hL, hfind]
  · intro hk
    have hnone : configs.reverse.find? (fun ac => ac.AppPackageName == k)
        = none := by
      refine List.find?_eq_none.mpr fun x hx hpx => hk ?_
      exact List.mem_map.mpr ⟨x, List.mem_reverse.mp hx, by simpa using hpx⟩
    have hLnone : mapLookup
        (loadConfig c now (ReadResult.ok configs)).state.cache k = none :=
      hL.trans hnone
    refine ⟨by simp [appConfig, hLnone], ?_⟩
    rw [AppPkgConfig_logs]
    by_cases hfresh : timeSub now
        (loadConfig c now (ReadResult.ok configs)).state.lastLoadTime
        < (loadConfig c now (ReadResult.ok configs)).state.refreshPeriod
    · rw [loadConfig_fresh_eq _ now (ReadResult.ok configs) hfresh]
      simp [hLnone]
    · have habs2 : mapLookup (loadConfig
          (loadConfig c now (ReadResult.ok configs)).state now
          (ReadResult.ok configs)).state.cache k = none :=
        (mapLookup_loadConfig_ok _ now configs k hfresh).trans hnone
      rw [loadConfig_ok_logs _ now configs hfresh, habs2]
      simp
  · intro htrue
    cases hfind : configs.reverse.find? (fun ac => ac.AppPackageName == k) with
    | none =>
        rw [appConfig] at htrue
        rw [hL, hfind] at htrue
        simp at htrue
    | some ac =>
        have hpred : ac.AppPackageName = k := by
          have := List.find?_some hfind
          simpa using this
        exact List.mem_map.mpr ⟨ac,
          List.mem_reverse.mp (List.mem_of_find?_eq_some hfind), hpred⟩

theorem loadConfig_snapshot_lookup_witness :
    ¬ timeSub 0 (config.mk 0 [] 0).lastLoadTime
        < (config.mk 0 [] 0).refreshPeriod ∧
    ((("a" : String) ∈ [APIConfig.mk "a" 1].map APIConfig.AppPackageName →
      (appConfig (loadConfig (config.mk 0 [] 0) 0
          (ReadResult.ok [APIConfig.mk "a" 1])).state "a").2 = true ∧
      ∃ ac ∈ [APIConfig.mk "a" 1], ac.AppPackageName = "a" ∧
        (appConfig (loadConfig (config.mk 0 [] 0) 0
            (ReadResult.ok [APIConfig.mk "a" 1])).state "a").1 = some ac) ∧
    (("a" : String) ∉ [APIConfig.mk "a" 1].map APIConfig.AppPackageName →
      (appConfig (loadConfig (config.mk 0 [] 0) 0
          (ReadResult.ok [APIConfig.mk "a" 1])).state "a").2 = false ∧
      ((AppPkgConfig (loadConfig (config.mk 0 [] 0) 0
          (ReadResult.ok [APIConfig.mk "a" 1])).state 0
          (ReadResult.ok [APIConfig.mk "a" 1]) "a").logs.filter
            (fun ev => ev.level == LogLevel.error)).length = 1) ∧
    ((appConfig (loadConfig (config.mk 0 [] 0) 0
        (ReadResult.ok [APIConfig.mk "a" 1])).state "a").2 = true →
      ("a" : String) ∈ [APIConfig.mk "a" 1].map APIConfig.AppPackageName)) :=
  ⟨by decide,
    loadConfig_snapshot_lookup (config.mk 0 [] 0) 0 [APIConfig.mk "a" 1] "a"
      (by decide)⟩

/-- C8: the mutex makes each `loadConfig` body atomic, so any concurrent
execution is a sequence of bodies (`runLoads`); of callers that all observe
staleness, only the first performs the durable-store read, and any further
calls landing within one refresh interval of it perform none — the whole
sequence performs exactly one read. -/
theorem loadConfig_once_per_interval (c : config) (t0 : Time)
    (configs : List APIConfig) (rest : List (Time × ReadResult))
    (hstale : ¬ timeSub t0 c.lastLoadTime < c.refreshPeriod)
    (hwin : ∀ p ∈ rest, t0 ≤ p.1 ∧ p.1 - t0 < c.refreshPeriod) :
    (loadConfig c t0 (ReadResult.ok configs)).didRead = true ∧
    (runLoads c ((t0, ReadResult.ok configs) :: rest)).2 = 1 := by
  have hdid : (loadConfig c t0 (ReadResult.ok configs)).didRead = true := by
    simp [loadConfig, hstale]
  have hlast : (loadConfig c t0 (ReadResult.ok configs)).state.lastLoadTime
      = t0 := by
    simp [loadConfig, hstale]
  have hper : (loadConfig c t0 (ReadResult.ok configs)).state.refreshPeriod
      = c.refreshPeriod := by
    simp [loadConfig, hstale]
  have hfreshAll : ∀ p ∈ rest,
      timeSub p.1 (loadConfig c t0 (ReadResult.ok configs)).state.lastLoadTime
        < (loadConfig c t0 (ReadResult.ok configs)).state.refreshPeriod := by
    intro p hp
    rw [hlast, hper]
    exact timeSub_lt_of_window p.1 t0 c.refreshPeriod (hwin p hp).1
      (hwin p hp).2
  have hrun := runLoads_all_fresh _ rest hfreshAll
  refine ⟨hdid, ?_⟩
  rw [runLoads]
  rw [hrun, hdid]
  rfl

theorem loadConfig_once_per_interval_witness :
    ¬ timeSub minute (config.mk 0 [] minute).lastLoadTime
        < (config.mk 0 [] minute).refreshPeriod ∧
    (∀ p ∈ [((minute + 1 : Time), ReadResult.ok ([] : List APIConfig))],
        minute ≤ p.1 ∧ p.1 - minute < (config.mk 0 [] minute).refreshPeriod) ∧
    ((loadConfig (config.mk 0 [] minute) minute
        (ReadResult.ok [APIConfig.mk "a" 1])).didRead = true ∧
     (runLoads (config.mk 0 [] minute)
        ((minute, ReadResult.ok [APIConfig.mk "a" 1])
          :: [((minute + 1 : Time), ReadResult.ok [])])).2 = 1) :=
  ⟨by decide, by decide,
    loadConfig_once_per_interval (config.mk 0 [] minute) minute
      [APIConfig.mk "a" 1] [((minute + 1 : Time), ReadResult.ok [])]
      (by decide) (by decide)⟩

end ConfigCache
